import Mathlib

/-!
Shallow embedding of the NedaraJS micro-templating engine
(`renderTemplate` and its helpers in nedara.js, v0.1.3-alpha).

Modelling conventions:
* JS strings are `List Char`; wrappers convert `String` at the interface.
* JS values reachable by the render pipeline are the inductive `Value`;
  `Option Value` models a possibly-`undefined` result.
* A computation that can throw is `Option (List Char)`; `none` is an
  exception propagating out of the function.
* The generic JS evaluation primitive used by `evaluateExpression`
  (`Function('"use strict"; return (' + sanitized + ')')()`) is a parameter
  `ev : List Char → Option Value`; `none` models a throw, which the source
  catches and turns into `false`.
* The recursive string-rewriting passes are written with an explicit fuel
  argument so that every definition is structurally recursive and kernel
  computable; wrappers pass `length + 1` fuel, which covers every chain of
  matches since each replaced match consumes at least one character.
-/

/-- JS values reachable by the render pipeline. Object fields model own
enumerable properties only: render contexts are plain data, so the
prototype chain consulted by the JS `in` operator is not modelled. -/
inductive Value where
  | vNull : Value
  | vBool : Bool → Value
  | vNum : Int → Value
  | vStr : List Char → Value
  | vArr : List Value → Value
  | vObj : List (List Char × Value) → Value

open Value

/-- JS regex `\w` (ASCII word character). -/
def wordChar (c : Char) : Bool :=
  c.isAlpha || c.isDigit || c = '_'

/-- Character class `[\w.]` used by the path-shaped token patterns. -/
def wordDotChar (c : Char) : Bool :=
  wordChar c || c = '.'

/-- Whitespace stripped by JS `String.prototype.trim`. -/
def isSpaceJS (c : Char) : Bool :=
  c = ' ' || c = '\t' || c = '\n' || c = '\r' || c = '\x0b' || c = '\x0c'

/-- JS `String.prototype.trim` on char lists. -/
def jsTrim (s : List Char) : List Char :=
  ((s.dropWhile isSpaceJS).reverse.dropWhile isSpaceJS).reverse

/-- Index of the first occurrence of `pat` in `s` (JS `String.indexOf`). -/
def findSub (pat : List Char) : List Char → Option Nat
  | [] => if pat.isEmpty then some 0 else none
  | s@(_ :: rest) =>
    if pat.isPrefixOf s then some 0
    else (findSub pat rest).map (· + 1)

/-- JS `String.prototype.includes`. -/
def jsIncludes (pat s : List Char) : Bool :=
  (findSub pat s).isSome

/-- Fueled scan for JS `String.prototype.split` on a literal separator. -/
def jsSplitF (sep : List Char) : Nat → List Char → List (List Char)
  | 0, s => [s]
  | f+1, s =>
    match findSub sep s with
    | none => [s]
    | some i => s.take i :: jsSplitF sep f (s.drop (i + sep.length))

/-- JS `String.prototype.split` on a literal separator. -/
def jsSplit (sep s : List Char) : List (List Char) :=
  jsSplitF sep (s.length + 1) s

/-- JS `path.split(".")` as used by `getValueFromPath`. -/
def splitDots : List Char → List (List Char)
  | [] => [[]]
  | c :: rest =>
    if c = '.' then [] :: splitDots rest
    else
      match splitDots rest with
      | [] => [[c]]
      | p :: ps => (c :: p) :: ps

mutual
/-- JS `String(v)` coercion for the modelled value fragment. -/
def jsToString : Value → List Char
  | vNull => "null".data
  | vBool true => "true".data
  | vBool false => "false".data
  | vNum n => (toString n).data
  | vStr s => s
  | vArr xs => jsToStringItems xs
  | vObj _ => "[object Object]".data
/-- `Array.prototype.join(",")` over element string forms (null prints empty). -/
def jsToStringItems : List Value → List Char
  | [] => []
  | [x] => (match x with | vNull => [] | v => jsToString v)
  | x :: y :: rest =>
    (match x with | vNull => [] | v => jsToString v) ++ ',' :: jsToStringItems (y :: rest)
end

/-- JS truthiness of the modelled values. -/
def truthy : Value → Bool
  | vNull => false
  | vBool b => b
  | vNum n => decide (n ≠ 0)
  | vStr s => !s.isEmpty
  | vArr _ => true
  | vObj _ => true

/-- Association lookup on modelled object fields. -/
def assocV (key : List Char) : List (List Char × Value) → Option Value
  | [] => none
  | (k, v) :: rest => if k = key then some v else assocV key rest

/-- Decimal array-index keys in the canonical form JS property keys use
("0", "17"; no leading zeros, no sign). -/
def decimalIndex : List Char → Option Nat
  | [] => none
  | c :: rest =>
    if (c :: rest).all Char.isDigit then
      if c = '0' && !rest.isEmpty then none
      else some ((c :: rest).foldl (fun n ch => n * 10 + (ch.toNat - 48)) 0)
    else none

/-- One reduce step of `getValueFromPath`: the JS guard
`acc && typeof acc === "object" && key in acc` followed by `acc[key]`.
Arrays expose their indices and `length`; every other value gives
`undefined`. -/
def lookupKey : Value → List Char → Option Value
  | vObj fields, key => assocV key fields
  | vArr xs, key =>
    if key = "length".data then some (vNum (xs.length : Int))
    else
      match decimalIndex key with
      | some i => xs.get? i
      | none => none
  | _, _ => none

/-- `getValueFromPath` (lines 46-53): dotted-path walk over the context. -/
def getValueFromPath (obj : Value) (path : List Char) : Option Value :=
  (splitDots path).foldl (fun acc key => acc.bind (fun v => lookupKey v key)) (some obj)

/-- One escaped character of `JSON.stringify` for strings (the control
characters other than the named escapes do not occur in the modelled data). -/
def jsonQuoteChar (c : Char) : List Char :=
  if c = '"' then ['\\', '"']
  else if c = '\\' then ['\\', '\\']
  else if c = '\n' then ['\\', 'n']
  else if c = '\r' then ['\\', 'r']
  else if c = '\t' then ['\\', 't']
  else [c]

/-- `JSON.stringify` of a string value. -/
def jsonQuote (s : List Char) : List Char :=
  '"' :: s.foldr (fun c acc => jsonQuoteChar c ++ acc) ['"']

/-- Replacement text substituted for a resolved identifier token in
`evaluateExpression`: strings are JSON-quoted, anything else is coerced
by string concatenation. -/
def tokenReplacement : Value → List Char
  | vStr s => jsonQuote s
  | v => jsToString v

/-- Strip the trailing dots of a maximal `[\w.]+` run: the regex engine
backtracks the greedy run until the trailing `\b` holds, which happens
exactly at the last word character. -/
def stripTrailingDots (run : List Char) : List Char :=
  (run.reverse.dropWhile (fun c => c = '.')).reverse

/-- Fueled scan of `expr.replace(/\b[\w.]+\b/g, resolve)` (lines 56-62).
`prev` is the character just before the scan position in the original
string (`none` at the start); a match needs a word boundary on both
sides, and replacement text is not rescanned. -/
def sanitizeF (ctx : Value) : Nat → Option Char → List Char → List Char
  | 0, _, s => s
  | _+1, _, [] => []
  | f+1, prev, s@(c :: rest) =>
    let prevWord := match prev with | none => false | some p => wordChar p
    if wordDotChar c && (prevWord != wordChar c) then
      match stripTrailingDots (s.takeWhile wordDotChar) with
      | [] => c :: sanitizeF ctx f (some c) rest
      | t :: ts =>
        let token := t :: ts
        let repl :=
          match getValueFromPath ctx token with
          | some v => tokenReplacement v
          | none => token
        repl ++ sanitizeF ctx f (some (token.getLastD t)) (s.drop token.length)
    else c :: sanitizeF ctx f (some c) rest

/-- The identifier-substitution pass of `evaluateExpression`. -/
def sanitizeExpr (ctx : Value) (expr : List Char) : List Char :=
  sanitizeF ctx (expr.length + 1) none expr

/-- `evaluateExpression` (lines 55-70): substitute identifiers, then run the
generic JS evaluation primitive `ev` on the result; a thrown error
(`none`) is caught and becomes `false`. -/
def evaluateExpression (ev : List Char → Option Value) (expr : List Char) (ctx : Value) : Value :=
  match ev (sanitizeExpr ctx expr) with
  | some v => v
  | none => vBool false

/-- Closing marker of an if block. -/
def closeIfTag : List Char := "\x7b\x7b/if\x7d\x7d".data

/-- Closing marker of a subif block. -/
def closeSubifTag : List Char := "\x7b\x7b/subif\x7d\x7d".data

/-- Else marker of an if block. -/
def elseTag : List Char := "\x7b\x7belse\x7d\x7d".data

/-- Else marker of a subif block. -/
def subelseTag : List Char := "\x7b\x7bsubelse\x7d\x7d".data

/-- Attempt the variable pattern `\{\{([\w.]+)\}\}` at the head of `s`;
on success return the captured path and the rest after the match. The
greedy `[\w.]+` run admits no backtracking here: a shorter run would be
followed by another `[\w.]` character, never by the required brace. -/
def tryVarAt : List Char → Option (List Char × List Char)
  | '{' :: '{' :: t =>
    let key := t.takeWhile wordDotChar
    if key.isEmpty then none
    else
      match t.dropWhile wordDotChar with
      | '}' :: '}' :: rest => some (key, rest)
      | _ => none
  | _ => none

/-- Leftmost match of the variable pattern: text before, path, rest after. -/
def findVarMatch : List Char → Option (List Char × List Char × List Char)
  | [] => none
  | s@(c :: rest) =>
    match tryVarAt s with
    | some (key, after) => some ([], key, after)
    | none => (findVarMatch rest).map (fun r => (c :: r.1, r.2.1, r.2.2))

/-- Attempt the loop pattern `\{\{#([\w.]+)\}\}([\s\S]*?)\{\{\/\1\}\}` at the
head of `s`: key, then the lazy body up to the first matching close tag. -/
def tryLoopAt : List Char → Option (List Char × List Char × List Char)
  | '{' :: '{' :: '#' :: t =>
    let key := t.takeWhile wordDotChar
    if key.isEmpty then none
    else
      match t.dropWhile wordDotChar with
      | '}' :: '}' :: body =>
        let close := '{' :: '{' :: '/' :: (key ++ ['}', '}'])
        match findSub close body with
        | some i => some (key, body.take i, body.drop (i + close.length))
        | none => none
      | _ => none
  | _ => none

/-- Leftmost match of the loop pattern: text before, key, body, rest. -/
def findLoopMatch : List Char → Option (List Char × List Char × List Char × List Char)
  | [] => none
  | s@(c :: rest) =>
    match tryLoopAt s with
    | some (key, body, after) => some ([], key, body, after)
    | none => (findLoopMatch rest).map (fun r => (c :: r.1, r.2.1, r.2.2.1, r.2.2.2))

/-- Lazy scan of `(.+?)\}\}`: `acc` holds the (reversed, nonempty) expression
consumed so far; the expression stops at the first `}}` and cannot cross a
line terminator (`.` does not match one). -/
def exprScanGo (acc : List Char) : List Char → Option (List Char × List Char)
  | '}' :: '}' :: rest => some (acc.reverse, rest)
  | c :: rest => if c = '\n' || c = '\r' then none else exprScanGo (c :: acc) rest
  | [] => none

/-- Attempt `\{\{#if (.+?)\}\}([\s\S]*?)\{\{\/if\}\}` at the head of `s`:
the lazy expression up to the first `}}`, then the lazy body up to the
first `{{/if}}`. If no close tag follows, longer expression candidates
search a subset of the same text, so the whole position fails. -/
def tryIfAt : List Char → Option (List Char × List Char × List Char)
  | '{' :: '{' :: '#' :: 'i' :: 'f' :: ' ' :: t =>
    (match t with
     | [] => none
     | c0 :: t' =>
       if c0 = '\n' || c0 = '\r' then none
       else
         match exprScanGo [c0] t' with
         | none => none
         | some (expr, body) =>
           match findSub closeIfTag body with
           | some i => some (expr, body.take i, body.drop (i + closeIfTag.length))
           | none => none)
  | _ => none

/-- Leftmost match of the if pattern: text before, expression, body, rest. -/
def findIfMatch : List Char → Option (List Char × List Char × List Char × List Char)
  | [] => none
  | s@(c :: rest) =>
    match tryIfAt s with
    | some (expr, body, after) => some ([], expr, body, after)
    | none => (findIfMatch rest).map (fun r => (c :: r.1, r.2.1, r.2.2.1, r.2.2.2))

/-- Attempt `\{\{#subif (.+?)\}\}([\s\S]*?)\{\{\/subif\}\}` at the head of `s`. -/
def trySubifAt : List Char → Option (List Char × List Char × List Char)
  | '{' :: '{' :: '#' :: 's' :: 'u' :: 'b' :: 'i' :: 'f' :: ' ' :: t =>
    (match t with
     | [] => none
     | c0 :: t' =>
       if c0 = '\n' || c0 = '\r' then none
       else
         match exprScanGo [c0] t' with
         | none => none
         | some (expr, body) =>
           match findSub closeSubifTag body with
           | some i => some (expr, body.take i, body.drop (i + closeSubifTag.length))
           | none => none)
  | _ => none

/-- Leftmost match of the subif pattern. -/
def findSubifMatch : List Char → Option (List Char × List Char × List Char × List Char)
  | [] => none
  | s@(c :: rest) =>
    match trySubifAt s with
    | some (expr, body, after) => some ([], expr, body, after)
    | none => (findSubifMatch rest).map (fun r => (c :: r.1, r.2.1, r.2.2.1, r.2.2.2))

/-- Attempt `nedara-(\w+)` at the head of `s`: the reserved tag-escape
marker followed by a nonempty greedy word run. -/
def tryNedaraAt : List Char → Option (List Char × List Char)
  | 'n' :: 'e' :: 'd' :: 'a' :: 'r' :: 'a' :: '-' :: t =>
    let run := t.takeWhile wordChar
    if run.isEmpty then none else some (run, t.drop run.length)
  | _ => none

/-- Leftmost match of `nedara-(\w+)`: text before, word run, rest. -/
def findNedaraMatch : List Char → Option (List Char × List Char × List Char)
  | [] => none
  | s@(c :: rest) =>
    match tryNedaraAt s with
    | some (run, after) => some ([], run, after)
    | none => (findNedaraMatch rest).map (fun r => (c :: r.1, r.2.1, r.2.2))

/-- Fueled variable-substitution pass (lines 157-163 and 189-195): each
`\{\{([\w.]+)\}\}` occurrence whose path resolves prints the value's string
form; an unresolved occurrence is emitted back as the matched literal text. -/
def substituteVariablesF (ctx : Value) : Nat → List Char → List Char
  | 0, s => s
  | f+1, s =>
    match findVarMatch s with
    | none => s
    | some (pre, path, rest) =>
      let repl :=
        match getValueFromPath ctx path with
        | some v => jsToString v
        | none => '{' :: '{' :: (path ++ ['}', '}'])
      pre ++ repl ++ substituteVariablesF ctx f rest

/-- The variable-substitution pass. -/
def substituteVariables (ctx : Value) (s : List Char) : List Char :=
  substituteVariablesF ctx (s.length + 1) s

/-- Fueled tag-escape pass: `rendered.replace(/nedara-(\w+)/g, "$1")`
(line 197). -/
def unescapeTagsF : Nat → List Char → List Char
  | 0, s => s
  | f+1, s =>
    match findNedaraMatch s with
    | none => s
    | some (pre, run, rest) => pre ++ run ++ unescapeTagsF f rest

/-- The tag-escape pass. -/
def unescapeTags (s : List Char) : List Char :=
  unescapeTagsF (s.length + 1) s

/-- Fueled `processConditionals` (lines 104-121). For each leftmost if match:
the condition is evaluated on the trimmed expression, the matched body is
recursively processed, and the emitted branch is the trimmed text before the
first `{{else}}` of the processed body if the condition is truthy, the
trimmed text between the first and second `{{else}}` if the raw body
contains `{{else}}`, and empty otherwise. A missing second split part is a
thrown `TypeError` (`none`). -/
def processConditionalsF (ev : List Char → Option Value) (ctx : Value) :
    Nat → List Char → Option (List Char)
  | 0, content => some content
  | f+1, content =>
    match findIfMatch content with
    | none => some content
    | some (pre, expr, inner, rest) =>
      let conditionValue := evaluateExpression ev (jsTrim expr) ctx
      (processConditionalsF ev ctx f inner).bind fun innerProcessed =>
      (if truthy conditionValue then
        some (jsTrim ((jsSplit elseTag innerProcessed).headD []))
      else if jsIncludes elseTag inner then
        ((jsSplit elseTag innerProcessed).get? 1).map jsTrim
      else
        some []).bind fun repl =>
      (processConditionalsF ev ctx f rest).map fun tail => pre ++ repl ++ tail

/-- `processConditionals`. -/
def processConditionals (ev : List Char → Option Value) (ctx : Value) (content : List Char) :
    Option (List Char) :=
  processConditionalsF ev ctx (content.length + 1) content

/-- Fueled `processSubConditionals` (lines 123-140). Identical to the if
pass except for the marker vocabulary, and the matched body is processed
with `processConditionals` (the if variant), as in the source. The truthy
test of the split guard is on the raw body while the split itself is on
the processed body, so the second split part can be missing: that is the
thrown `TypeError` (`none`). -/
def processSubConditionalsF (ev : List Char → Option Value) (ctx : Value) :
    Nat → List Char → Option (List Char)
  | 0, content => some content
  | f+1, content =>
    match findSubifMatch content with
    | none => some content
    | some (pre, expr, inner, rest) =>
      let conditionValue := evaluateExpression ev (jsTrim expr) ctx
      (processConditionals ev ctx inner).bind fun innerProcessed =>
      (if truthy conditionValue then
        some (jsTrim ((jsSplit subelseTag innerProcessed).headD []))
      else if jsIncludes subelseTag inner then
        ((jsSplit subelseTag innerProcessed).get? 1).map jsTrim
      else
        some []).bind fun repl =>
      (processSubConditionalsF ev ctx f rest).map fun tail => pre ++ repl ++ tail

/-- `processSubConditionals`. -/
def processSubConditionals (ev : List Char → Option Value) (ctx : Value) (content : List Char) :
    Option (List Char) :=
  processSubConditionalsF ev ctx (content.length + 1) content

/-- Fueled second top-level if pass (lines 176-187): like the if pass but
with no recursion into the matched body, and with the guard and the split
taken on the same string. -/
def topIfPassF (ev : List Char → Option Value) (ctx : Value) :
    Nat → List Char → Option (List Char)
  | 0, content => some content
  | f+1, content =>
    match findIfMatch content with
    | none => some content
    | some (pre, expr, sect, rest) =>
      let conditionResult := evaluateExpression ev (jsTrim expr) ctx
      (if truthy conditionResult then
        some (jsTrim ((jsSplit elseTag sect).headD []))
      else if jsIncludes elseTag sect then
        ((jsSplit elseTag sect).get? 1).map jsTrim
      else
        some []).bind fun repl =>
      (topIfPassF ev ctx f rest).map fun tail => pre ++ repl ++ tail

/-- Wrapper of the second top-level if pass. -/
def topIfPass (ev : List Char → Option Value) (ctx : Value) (content : List Char) :
    Option (List Char) :=
  topIfPassF ev ctx (content.length + 1) content

/-- Per-element body pipeline inside a loop (lines 152-163): conditionals,
sub-conditionals, then variable substitution, each with the element as the
context. -/
def loopStep (ev : List Char → Option Value) (item : Value) (sect : List Char) :
    Option (List Char) :=
  (processConditionals ev item sect).bind fun p1 =>
  (processSubConditionals ev item p1).map fun p2 =>
  substituteVariables item p2

mutual
/-- Fueled `processNestedLoops` (lines 142-170). For each leftmost loop
match: an unresolved or non-array key collapses the block to empty output;
an array expands the body once per element. -/
def processNestedLoopsF (ev : List Char → Option Value) :
    Nat → Value → List Char → Option (List Char)
  | 0, _, content => some content
  | f+1, ctx, content =>
    match findLoopMatch content with
    | none => some content
    | some (pre, key, sect, rest) =>
      (match getValueFromPath ctx key with
       | some (vArr xs) => loopItemsF ev f xs sect
       | _ => some []).bind fun repl =>
      (processNestedLoopsF ev f ctx rest).map fun tail => pre ++ repl ++ tail
/-- `array.map(...)` over the loop elements followed by `join("")`: each
element runs the body pipeline and then the recursive loop pass with
itself as context; outputs are concatenated in order with no separator. -/
def loopItemsF (ev : List Char → Option Value) :
    Nat → List Value → List Char → Option (List Char)
  | 0, _, _ => some []
  | _+1, [], _ => some []
  | f+1, item :: more, sect =>
    (loopStep ev item sect).bind fun p3 =>
    (processNestedLoopsF ev f item p3).bind fun p4 =>
    (loopItemsF ev f more sect).map fun tail => p4 ++ tail
end

/-- `processNestedLoops`. -/
def processNestedLoops (ev : List Char → Option Value) (ctx : Value) (content : List Char) :
    Option (List Char) :=
  processNestedLoopsF ev (content.length + 1) ctx content

/-- Template store lookup on the parsed template document. -/
def assocTemplate (id : String) : List (String × String) → Option String
  | [] => none
  | (k, v) :: rest => if k = id then some v else assocTemplate id rest

/-- `_getTemplate` (lines 33-44): `none` when no templates were imported
(`templateDoc === null`) or the id is absent; otherwise the trimmed
`innerHTML` of the matching element. -/
def getTemplate (doc : Option (List (String × String))) (id : String) : Option (List Char) :=
  match doc with
  | none => none
  | some entries =>
    match assocTemplate id entries with
    | none => none
    | some t => some (jsTrim t.data)

/-- The body of `renderTemplate` after template lookup (lines 172-199):
loops, conditionals, sub-conditionals, the second if pass, variable
substitution with the root data, then the tag-escape pass. `none` is an
exception escaping the call. -/
def renderContent (ev : List Char → Option Value) (data : Value) (content : List Char) :
    Option (List Char) :=
  (processNestedLoops ev data content).bind fun r1 =>
  (processConditionals ev data r1).bind fun r2 =>
  (processSubConditionals ev data r2).bind fun r3 =>
  (topIfPass ev data r3).bind fun r4 =>
  some (unescapeTags (substituteVariables data r4))

/-- `renderTemplate` (lines 98-200): empty string when the template id is
unresolvable, otherwise the processed template text. -/
def renderTemplate (ev : List Char → Option Value) (doc : Option (List (String × String)))
    (id : String) (data : Value) : Option String :=
  match getTemplate doc id with
  | none => some ""
  | some content => (renderContent ev data content).map fun r => String.mk r

/-- A concrete instance of the generic JS evaluation primitive, correct for
the substituted expressions appearing in the concrete inputs below: a
boolean or nonnegative-integer literal evaluates to itself; anything else
(in particular a bare unresolved identifier, a `ReferenceError` in strict
mode) is a thrown error. -/
def jsEvalLit (s : List Char) : Option Value :=
  let t := jsTrim s
  if t = "true".data then some (vBool true)
  else if t = "false".data then some (vBool false)
  else
    match decimalIndex t with
    | some n => some (vNum (n : Int))
    | none => none

/-! Helper lemmas: identity of each pass on match-free text, one-step
unfoldings of the fueled scans, and list facts used by the claim proofs. -/

theorem processConditionalsF_of_none (ev : List Char → Option Value) (ctx : Value)
    (f : Nat) (content : List Char) (h : findIfMatch content = none) :
    processConditionalsF ev ctx f content = some content := by
  cases f with
  | zero => rfl
  | succ f => simp only [processConditionalsF, h]

theorem processConditionals_of_none (ev : List Char → Option Value) (ctx : Value)
    (content : List Char) (h : findIfMatch content = none) :
    processConditionals ev ctx content = some content :=
  processConditionalsF_of_none ev ctx _ content h

theorem processSubConditionalsF_of_none (ev : List Char → Option Value) (ctx : Value)
    (f : Nat) (content : List Char) (h : findSubifMatch content = none) :
    processSubConditionalsF ev ctx f content = some content := by
  cases f with
  | zero => rfl
  | succ f => simp only [processSubConditionalsF, h]

theorem processSubConditionals_of_none (ev : List Char → Option Value) (ctx : Value)
    (content : List Char) (h : findSubifMatch content = none) :
    processSubConditionals ev ctx content = some content :=
  processSubConditionalsF_of_none ev ctx _ content h

theorem topIfPassF_of_none (ev : List Char → Option Value) (ctx : Value)
    (f : Nat) (content : List Char) (h : findIfMatch content = none) :
    topIfPassF ev ctx f content = some content := by
  cases f with
  | zero => rfl
  | succ f => simp only [topIfPassF, h]

theorem topIfPass_of_none (ev : List Char → Option Value) (ctx : Value)
    (content : List Char) (h : findIfMatch content = none) :
    topIfPass ev ctx content = some content :=
  topIfPassF_of_none ev ctx _ content h

theorem processNestedLoopsF_of_none (ev : List Char → Option Value)
    (f : Nat) (ctx : Value) (content : List Char) (h : findLoopMatch content = none) :
    processNestedLoopsF ev f ctx content = some content := by
  cases f with
  | zero => rfl
  | succ f => simp only [processNestedLoopsF, h]

theorem processNestedLoops_of_none (ev : List Char → Option Value) (ctx : Value)
    (content : List Char) (h : findLoopMatch content = none) :
    processNestedLoops ev ctx content = some content :=
  processNestedLoopsF_of_none ev _ ctx content h

theorem substituteVariablesF_of_none (ctx : Value) (f : Nat) (s : List Char)
    (h : findVarMatch s = none) : substituteVariablesF ctx f s = s := by
  cases f with
  | zero => rfl
  | succ f => simp only [substituteVariablesF, h]

theorem substituteVariables_of_none (ctx : Value) (s : List Char)
    (h : findVarMatch s = none) : substituteVariables ctx s = s :=
  substituteVariablesF_of_none ctx _ s h

theorem unescapeTagsF_of_none (f : Nat) (s : List Char)
    (h : findNedaraMatch s = none) : unescapeTagsF f s = s := by
  cases f with
  | zero => rfl
  | succ f => simp only [unescapeTagsF, h]

theorem unescapeTags_of_none (s : List Char)
    (h : findNedaraMatch s = none) : unescapeTags s = s :=
  unescapeTagsF_of_none _ s h

theorem processConditionalsF_step (ev : List Char → Option Value) (ctx : Value)
    (f : Nat) (content pre expr inner rest : List Char)
    (h : findIfMatch content = some (pre, expr, inner, rest)) :
    processConditionalsF ev ctx (f+1) content =
      (processConditionalsF ev ctx f inner).bind fun innerProcessed =>
      (if truthy (evaluateExpression ev (jsTrim expr) ctx) then
        some (jsTrim ((jsSplit elseTag innerProcessed).headD []))
      else if jsIncludes elseTag inner then
        ((jsSplit elseTag innerProcessed).get? 1).map jsTrim
      else
        some []).bind fun repl =>
      (processConditionalsF ev ctx f rest).map fun tail => pre ++ repl ++ tail := by
  simp only [processConditionalsF, h]

theorem processSubConditionalsF_step (ev : List Char → Option Value) (ctx : Value)
    (f : Nat) (content pre expr inner rest : List Char)
    (h : findSubifMatch content = some (pre, expr, inner, rest)) :
    processSubConditionalsF ev ctx (f+1) content =
      (processConditionals ev ctx inner).bind fun innerProcessed =>
      (if truthy (evaluateExpression ev (jsTrim expr) ctx) then
        some (jsTrim ((jsSplit subelseTag innerProcessed).headD []))
      else if jsIncludes subelseTag inner then
        ((jsSplit subelseTag innerProcessed).get? 1).map jsTrim
      else
        some []).bind fun repl =>
      (processSubConditionalsF ev ctx f rest).map fun tail => pre ++ repl ++ tail := by
  simp only [processSubConditionalsF, h]

theorem processNestedLoopsF_step (ev : List Char → Option Value)
    (f : Nat) (ctx : Value) (content pre key sect rest : List Char)
    (h : findLoopMatch content = some (pre, key, sect, rest)) :
    processNestedLoopsF ev (f+1) ctx content =
      (match getValueFromPath ctx key with
       | some (vArr xs) => loopItemsF ev f xs sect
       | _ => some []).bind fun repl =>
      (processNestedLoopsF ev f ctx rest).map fun tail => pre ++ repl ++ tail := by
  simp only [processNestedLoopsF, h]

theorem loopItemsF_nil (ev : List Char → Option Value) (f : Nat) (sect : List Char) :
    loopItemsF ev f [] sect = some [] := by
  cases f with
  | zero => rfl
  | succ f => rfl

theorem loopItemsF_cons (ev : List Char → Option Value) (f : Nat)
    (item : Value) (more : List Value) (sect : List Char) :
    loopItemsF ev (f+1) (item :: more) sect =
      (loopStep ev item sect).bind fun p3 =>
      (processNestedLoopsF ev f item p3).bind fun p4 =>
      (loopItemsF ev f more sect).map fun tail => p4 ++ tail := by
  simp only [loopItemsF]

theorem substituteVariablesF_step (ctx : Value) (f : Nat) (s pre path rest : List Char)
    (h : findVarMatch s = some (pre, path, rest)) :
    substituteVariablesF ctx (f+1) s =
      pre ++ (match getValueFromPath ctx path with
              | some v => jsToString v
              | none => '{' :: '{' :: (path ++ ['}', '}'])) ++
        substituteVariablesF ctx f rest := by
  simp only [substituteVariablesF, h]

theorem takeWhile_all_head (p : Char → Bool) (l1 : List Char) (x : Char) (l2 : List Char)
    (h1 : ∀ c ∈ l1, p c = true) (h2 : p x = false) :
    (l1 ++ x :: l2).takeWhile p = l1 := by
  induction l1 with
  | nil => simp [List.takeWhile, h2]
  | cons c cs ih =>
    have hc : p c = true := h1 c (by simp)
    simp only [List.cons_append, List.takeWhile, hc, List.cons.injEq, true_and]
    exact ih (fun d hd => h1 d (by simp [hd]))

theorem dropWhile_all_head (p : Char → Bool) (l1 : List Char) (x : Char) (l2 : List Char)
    (h1 : ∀ c ∈ l1, p c = true) (h2 : p x = false) :
    (l1 ++ x :: l2).dropWhile p = x :: l2 := by
  induction l1 with
  | nil => simp [List.dropWhile, h2]
  | cons c cs ih =>
    have hc : p c = true := h1 c (by simp)
    simp only [List.cons_append, List.dropWhile, hc]
    exact ih (fun d hd => h1 d (by simp [hd]))

theorem dropWhile_append_all (p : Char → Bool) (ws s : List Char)
    (h : ∀ c ∈ ws, p c = true) : (ws ++ s).dropWhile p = s.dropWhile p := by
  induction ws with
  | nil => simp
  | cons c cs ih =>
    have hc : p c = true := h c (by simp)
    simp only [List.cons_append, List.dropWhile, hc]
    exact ih (fun d hd => h d (by simp [hd]))

theorem tryVarAt_marker (path suf : List Char) (h2 : path ≠ [])
    (h3 : ∀ c ∈ path, wordDotChar c = true) :
    tryVarAt ('{' :: '{' :: (path ++ '}' :: '}' :: suf)) = some (path, suf) := by
  have hbr : wordDotChar '}' = false := by decide
  simp only [tryVarAt, takeWhile_all_head wordDotChar path '}' ('}' :: suf) h3 hbr,
    dropWhile_all_head wordDotChar path '}' ('}' :: suf) h3 hbr,
    List.isEmpty_iff, h2, if_false]

theorem tryVarAt_cons_ne (c : Char) (rest : List Char) (h : c ≠ '{') :
    tryVarAt (c :: rest) = none := by
  rw [tryVarAt.eq_def]
  split
  · rename_i heq
    rw [List.cons.injEq] at heq
    exact absurd heq.1 h
  · rfl

theorem findVarMatch_cons_none (c : Char) (rest : List Char)
    (h : tryVarAt (c :: rest) = none) :
    findVarMatch (c :: rest) = (findVarMatch rest).map (fun r => (c :: r.1, r.2.1, r.2.2)) := by
  simp only [findVarMatch, h]

theorem findVarMatch_marker (pre path suf : List Char) (h1 : '{' ∉ pre)
    (h2 : path ≠ []) (h3 : ∀ c ∈ path, wordDotChar c = true) :
    findVarMatch (pre ++ '{' :: '{' :: (path ++ '}' :: '}' :: suf)) = some (pre, path, suf) := by
  induction pre with
  | nil =>
    simp only [List.nil_append, findVarMatch, tryVarAt_marker path suf h2 h3]
  | cons c cs ih =>
    have hc : c ≠ '{' := fun hh => h1 (by simp [hh])
    have hcs : '{' ∉ cs := fun hh => h1 (by simp [hh])
    rw [List.cons_append, findVarMatch_cons_none c _ (tryVarAt_cons_ne c _ hc), ih hcs]
    rfl

theorem jsTrim_space_left (ws s : List Char) (h : ∀ c ∈ ws, isSpaceJS c = true) :
    jsTrim (ws ++ s) = jsTrim s := by
  unfold jsTrim
  rw [dropWhile_append_all isSpaceJS ws s h]

theorem jsTrim_space_right (s ws : List Char) (h : ∀ c ∈ ws, isSpaceJS c = true) :
    jsTrim (s ++ ws) = jsTrim s := by
  unfold jsTrim
  rw [List.dropWhile_append]
  by_cases hcase : (s.dropWhile isSpaceJS).isEmpty
  · rw [if_pos hcase]
    rw [List.dropWhile_eq_nil_iff.mpr h]
    rw [List.isEmpty_iff] at hcase
    rw [hcase]
  · rw [if_neg hcase]
    rw [List.reverse_append]
    rw [dropWhile_append_all isSpaceJS ws.reverse (s.dropWhile isSpaceJS).reverse
      (fun c hc => h c (List.mem_reverse.mp hc))]

theorem jsTrim_pad (ws1 src ws2 : List Char)
    (h1 : ∀ c ∈ ws1, isSpaceJS c = true) (h2 : ∀ c ∈ ws2, isSpaceJS c = true) :
    jsTrim (ws1 ++ src ++ ws2) = jsTrim src := by
  rw [List.append_assoc, jsTrim_space_left ws1 (src ++ ws2) h1, jsTrim_space_right src ws2 h2]

/-! Claim theorems. -/

/-- C9: for every template identifier that is not present in the template
store, and also when no templates have been loaded at all, renderTemplate
returns the empty string, for every data context. -/
theorem c9_unresolvable_id_renders_empty (ev : List Char → Option Value)
    (doc : Option (List (String × String))) (id : String) (data : Value)
    (h : getTemplate doc id = none) :
    renderTemplate ev doc id data = some "" := by
  simp only [renderTemplate, h]

/-- Witness for C9: a store that was never loaded and a loaded store without
the requested id both render to the empty string. -/
theorem c9_witness :
    renderTemplate jsEvalLit none "t" (vObj []) = some "" ∧
    renderTemplate jsEvalLit (some [("s", "x")]) "t" (vObj []) = some "" :=
  ⟨c9_unresolvable_id_renders_empty jsEvalLit none "t" (vObj []) rfl,
   c9_unresolvable_id_renders_empty jsEvalLit (some [("s", "x")]) "t" (vObj []) rfl⟩

/-- C5: for every expression string and context, if the generic evaluator
throws on the substituted expression, evaluateExpression returns false
rather than propagating the throw; in particular a conditional whose
expression is a single unresolved identifier (a ReferenceError when
evaluated) takes the else branch, or emits empty output when no else
marker is present. -/
theorem c5_evaluator_fails_silently_to_false (ev : List Char → Option Value)
    (expr : List Char) (ctx : Value) :
    (ev (sanitizeExpr ctx expr) = none → evaluateExpression ev expr ctx = vBool false)
    ∧ (getValueFromPath ctx "flag".data = none → ev "flag".data = none →
        processConditionals ev ctx "\x7b\x7b#if flag\x7d\x7dY\x7b\x7belse\x7d\x7dN\x7b\x7b/if\x7d\x7d".data = some "N".data
        ∧ processConditionals ev ctx "\x7b\x7b#if flag\x7d\x7dY\x7b\x7b/if\x7d\x7d".data = some []) := by
  constructor
  · intro h
    simp only [evaluateExpression, h]
  · intro hlook hev
    have hsan : sanitizeExpr ctx (jsTrim "flag".data) =
        (match getValueFromPath ctx "flag".data with
         | some v => tokenReplacement v
         | none => "flag".data) ++ [] := rfl
    have heval : evaluateExpression ev (jsTrim "flag".data) ctx = vBool false := by
      simp only [evaluateExpression, hsan, hlook, List.append_nil, hev]
    constructor
    · simp only [processConditionals]
      rw [processConditionalsF_step ev ctx _ "\x7b\x7b#if flag\x7d\x7dY\x7b\x7belse\x7d\x7dN\x7b\x7b/if\x7d\x7d".data
        [] "flag".data "Y\x7b\x7belse\x7d\x7dN".data [] rfl]
      rw [processConditionalsF_of_none ev ctx _ "Y\x7b\x7belse\x7d\x7dN".data rfl]
      rw [processConditionalsF_of_none ev ctx _ [] rfl]
      rw [heval]
      simp only [truthy, Bool.false_eq_true, if_false, Option.some_bind]
      rw [if_pos (show jsIncludes elseTag "Y\x7b\x7belse\x7d\x7dN".data = true from rfl)]
      rfl
    · simp only [processConditionals]
      rw [processConditionalsF_step ev ctx _ "\x7b\x7b#if flag\x7d\x7dY\x7b\x7b/if\x7d\x7d".data
        [] "flag".data "Y".data [] rfl]
      rw [processConditionalsF_of_none ev ctx _ "Y".data rfl]
      rw [processConditionalsF_of_none ev ctx _ [] rfl]
      rw [heval]
      simp only [truthy, Bool.false_eq_true, if_false, Option.some_bind]
      rw [if_neg (show ¬jsIncludes elseTag "Y".data = true by decide)]
      rfl

/-- Witness for C5 at a concrete evaluator, expression and context. -/
theorem c5_witness :
    evaluateExpression jsEvalLit "flag".data (vObj []) = vBool false
    ∧ processConditionals jsEvalLit (vObj []) "\x7b\x7b#if flag\x7d\x7dY\x7b\x7belse\x7d\x7dN\x7b\x7b/if\x7d\x7d".data
        = some "N".data
    ∧ processConditionals jsEvalLit (vObj []) "\x7b\x7b#if flag\x7d\x7dY\x7b\x7b/if\x7d\x7d".data = some [] := by
  have h := c5_evaluator_fails_silently_to_false jsEvalLit "flag".data (vObj [])
  have h2 := h.2 rfl rfl
  exact ⟨h.1 rfl, h2.1, h2.2⟩

/-- C6: for every context, a remaining variable occurrence with a
well-formed dotted path (over any marker-free prefix and any suffix) is
replaced by the resolved value's string form when the path resolves, and
is left untouched as the literal marker text when it does not — the pass
never fails and never emits blank output for an unresolved path. -/
theorem c6_variable_substitution_fail_open (ctx : Value) (f : Nat)
    (pre path suf : List Char) (h1 : '{' ∉ pre) (h2 : path ≠ [])
    (h3 : ∀ c ∈ path, wordDotChar c = true) :
    substituteVariablesF ctx (f+1) (pre ++ '{' :: '{' :: (path ++ '}' :: '}' :: suf)) =
      pre ++ (match getValueFromPath ctx path with
              | some v => jsToString v
              | none => '{' :: '{' :: (path ++ ['}', '}'])) ++
        substituteVariablesF ctx f suf := by
  rw [substituteVariablesF_step ctx f _ pre path suf (findVarMatch_marker pre path suf h1 h2 h3)]

/-- Witness for C6: a resolving and a non-resolving occurrence at a
concrete context. -/
theorem c6_witness :
    substituteVariablesF (vObj [("name".data, vStr "Ann".data)]) 1 "Hi \x7b\x7bname\x7d\x7d!".data
      = "Hi Ann!".data
    ∧ substituteVariablesF (vObj []) 1 "Hi \x7b\x7bname\x7d\x7d!".data = "Hi \x7b\x7bname\x7d\x7d!".data := by
  constructor
  · have h := c6_variable_substitution_fail_open (vObj [("name".data, vStr "Ann".data)]) 0
      "Hi ".data "name".data "!".data (by decide) (by decide) (by decide)
    exact h.trans (by decide)
  · have h := c6_variable_substitution_fail_open (vObj []) 0
      "Hi ".data "name".data "!".data (by decide) (by decide) (by decide)
    exact h.trans (by decide)

/-- Counterexample for C7: the tag-escape pass is not idempotent on
already-processed text. One application of the pass to "nedara-nedara-x"
yields "nedara-x" (the second marker is consumed as the word run of the
first and scanning resumes after it), and a second application yields "x". -/
theorem c7_counterexample :
    unescapeTags (unescapeTags "nedara-nedara-x".data)
      ≠ unescapeTags "nedara-nedara-x".data
    ∧ unescapeTags "nedara-nedara-x".data = "nedara-x".data
    ∧ unescapeTags (unescapeTags "nedara-nedara-x".data) = "x".data := by
  refine ⟨by decide, by decide, by decide⟩

/-- C7 amended: the tag-escape pass is a no-op on any text with no
occurrence of the "nedara-" marker followed by a word character; since one
application can leave such an occurrence when escapes abut, applying the
pass twice is a no-op exactly when the first application's output is
marker-free. -/
theorem c7_amended_unescape_idempotent (s : List Char)
    (h : findNedaraMatch (unescapeTags s) = none) :
    unescapeTags (unescapeTags s) = unescapeTags s :=
  unescapeTags_of_none (unescapeTags s) h

/-- Witness for C7 amended at a concrete already-unescaped text. -/
theorem c7_witness :
    unescapeTags (unescapeTags "a nedara-div b".data) = unescapeTags "a nedara-div b".data :=
  c7_amended_unescape_idempotent "a nedara-div b".data (by decide)

/-- C4 failing input: rendering this template with data `{a: 1}` throws.
The sub-conditional pass guards its else split on the raw body, which
contains "{{subelse}}", but splits the body processed by the if pass,
which has consumed the "{{subelse}}" into a falsy if block; part 1 of the
split is then missing (undefined in JS) and trimming it throws a
TypeError that nothing catches. `none` is that escaping exception. -/
theorem c4_exception_escapes_render :
    renderTemplate jsEvalLit
      (some [("t", "\x7b\x7b#subif X\x7d\x7d\x7b\x7b#if a\x7d\x7d\x7b\x7b#if b\x7d\x7d\x7b\x7bsubelse\x7d\x7d\x7b\x7b/if\x7d\x7d\x7b\x7b/if\x7d\x7d\x7b\x7b/subif\x7d\x7d")])
      "t" (vObj [("a".data, vNum 1)]) = none := by
  decide

/-- Counterexample for C8: a template containing no template tags but
containing the reserved "nedara-" escape marker is still rewritten by the
tag-escape pass, so rendering does not return the source unchanged. -/
theorem c8_counterexample :
    renderTemplate jsEvalLit (some [("t", "nedara-b")]) "t" (vObj []) = some "b"
    ∧ ("b" : String) ≠ "nedara-b" := by
  refine ⟨by decide, by decide⟩

/-- C8 amended: for every stored template whose trimmed source text matches
none of the loop, conditional, sub-conditional and variable patterns and
contains no reserved "nedara-" escape occurrence, rendering returns the
trimmed source unchanged, for every context and every evaluator. -/
theorem c8_amended_roundtrip (ev : List Char → Option Value)
    (entries : List (String × String)) (id : String) (data : Value) (src : String)
    (hlook : assocTemplate id entries = some src)
    (h1 : findLoopMatch (jsTrim src.data) = none)
    (h2 : findIfMatch (jsTrim src.data) = none)
    (h3 : findSubifMatch (jsTrim src.data) = none)
    (h4 : findVarMatch (jsTrim src.data) = none)
    (h5 : findNedaraMatch (jsTrim src.data) = none) :
    renderTemplate ev (some entries) id data = some (String.mk (jsTrim src.data)) := by
  have hget : getTemplate (some entries) id = some (jsTrim src.data) := by
    simp only [getTemplate, hlook]
  simp only [renderTemplate, hget, renderContent]
  rw [processNestedLoops_of_none ev data _ h1]
  simp only [Option.some_bind]
  rw [processConditionals_of_none ev data _ h2]
  simp only [Option.some_bind]
  rw [processSubConditionals_of_none ev data _ h3]
  simp only [Option.some_bind]
  rw [topIfPass_of_none ev data _ h2]
  simp only [Option.some_bind]
  rw [substituteVariables_of_none data _ h4, unescapeTags_of_none _ h5]
  rfl

/-- Witness for C8 amended at a concrete tag-free template. -/
theorem c8_witness :
    renderTemplate jsEvalLit (some [("t", "hello world")]) "t" (vObj []) = some "hello world" := by
  have h := c8_amended_roundtrip jsEvalLit [("t", "hello world")] "t" (vObj []) "hello world"
    rfl (by decide) (by decide) (by decide) (by decide) (by decide)
  exact h.trans (by decide)

/-- C10: renderTemplate operates on the stored template text with leading
and trailing whitespace stripped: rendering a stored source that is any
whitespace padding around a core text proceeds exactly on the trimmed
core, so the output never carries the source's own leading or trailing
whitespace. -/
theorem c10_template_trimmed_at_interface (ev : List Char → Option Value)
    (entries : List (String × String)) (id : String) (data : Value) (tpl : String)
    (ws1 src ws2 : List Char)
    (hlook : assocTemplate id entries = some tpl)
    (hdata : tpl.data = ws1 ++ src ++ ws2)
    (hws1 : ∀ c ∈ ws1, isSpaceJS c = true) (hws2 : ∀ c ∈ ws2, isSpaceJS c = true) :
    renderTemplate ev (some entries) id data
      = (renderContent ev data (jsTrim src)).map fun r => String.mk r := by
  have hget : getTemplate (some entries) id = some (jsTrim src) := by
    simp only [getTemplate, hlook, hdata, jsTrim_pad ws1 src ws2 hws1 hws2]
  simp only [renderTemplate, hget]

/-- Witness for C10: a whitespace-padded template renders as its trimmed
core. -/
theorem c10_witness :
    renderTemplate jsEvalLit (some [("t", "  hi  ")]) "t" (vObj []) = some "hi" := by
  have h := c10_template_trimmed_at_interface jsEvalLit [("t", "  hi  ")] "t" (vObj [])
    "  hi  " "  ".data "hi".data "  ".data rfl (by decide) (by decide) (by decide)
  exact h.trans (by decide)

/-- C3: for every template in which the loop pattern matches (any leftmost
block decomposition) and every context: if the key resolves to anything
other than an array the whole block including its markers collapses to
empty output and processing continues on the rest; if it resolves to an
array, the block is replaced by the per-element outputs in array order
with no separator, where each element runs the body pipeline with itself
as the context (so an empty array also yields empty output). -/
theorem c3_loop_expansion (ev : List Char → Option Value) (f : Nat) (ctx : Value)
    (content pre key sect rest : List Char)
    (h : findLoopMatch content = some (pre, key, sect, rest)) :
    ((∀ xs, getValueFromPath ctx key ≠ some (vArr xs)) →
      processNestedLoopsF ev (f+1) ctx content =
        (processNestedLoopsF ev f ctx rest).map fun tail => pre ++ tail)
    ∧ (∀ xs, getValueFromPath ctx key = some (vArr xs) →
      processNestedLoopsF ev (f+1) ctx content =
        (loopItemsF ev f xs sect).bind fun repl =>
        (processNestedLoopsF ev f ctx rest).map fun tail => pre ++ repl ++ tail)
    ∧ loopItemsF ev (f+1) [] sect = some []
    ∧ (∀ item more, loopItemsF ev (f+1) (item :: more) sect =
        (loopStep ev item sect).bind fun p3 =>
        (processNestedLoopsF ev f item p3).bind fun p4 =>
        (loopItemsF ev f more sect).map fun tail => p4 ++ tail) := by
  refine ⟨?_, ?_, loopItemsF_nil ev (f+1) sect,
    fun item more => loopItemsF_cons ev f item more sect⟩
  · intro hne
    rw [processNestedLoopsF_step ev f ctx content pre key sect rest h]
    have hrepl : (match getValueFromPath ctx key with
        | some (vArr xs) => loopItemsF ev f xs sect
        | _ => some []) = some ([] : List Char) := by
      cases hv : getValueFromPath ctx key with
      | none => rfl
      | some val =>
        cases val with
        | vArr xs => exact absurd hv (hne xs)
        | vNull => rfl
        | vBool b => rfl
        | vNum n => rfl
        | vStr s => rfl
        | vObj fs => rfl
    rw [hrepl]
    simp
  · intro xs hv
    rw [processNestedLoopsF_step ev f ctx content pre key sect rest h, hv]

/-- Witness for C3: the loop of the specification example expands to
"a-b-" over a two-element array, and collapses to empty output when the
key is absent. -/
theorem c3_witness :
    processNestedLoopsF jsEvalLit (29 + 1)
      (vObj [("items".data,
        vArr [vObj [("name".data, vStr "a".data)], vObj [("name".data, vStr "b".data)]])])
      "\x7b\x7b#items\x7d\x7d\x7b\x7bname\x7d\x7d-\x7b\x7b/items\x7d\x7d".data = some "a-b-".data
    ∧ processNestedLoopsF jsEvalLit (29 + 1) (vObj [])
      "\x7b\x7b#items\x7d\x7d\x7b\x7bname\x7d\x7d-\x7b\x7b/items\x7d\x7d".data = some [] := by
  constructor
  · have h := (c3_loop_expansion jsEvalLit 29
      (vObj [("items".data,
        vArr [vObj [("name".data, vStr "a".data)], vObj [("name".data, vStr "b".data)]])])
      "\x7b\x7b#items\x7d\x7d\x7b\x7bname\x7d\x7d-\x7b\x7b/items\x7d\x7d".data [] "items".data "\x7b\x7bname\x7d\x7d-".data [] rfl).2.1
      [vObj [("name".data, vStr "a".data)], vObj [("name".data, vStr "b".data)]] rfl
    exact h.trans (by decide)
  · have h := (c3_loop_expansion jsEvalLit 29 (vObj [])
      "\x7b\x7b#items\x7d\x7d\x7b\x7bname\x7d\x7d-\x7b\x7b/items\x7d\x7d".data [] "items".data "\x7b\x7bname\x7d\x7d-".data [] rfl).1
      (fun xs hx => Option.noConfusion hx)
    exact h.trans (by decide)

/-- Counterexample for C2: the if pattern pairs the opening marker with the
nearest following closing marker, not the nearest correctly-nested one.
On this nested template with both conditions falsy, correct nesting would
erase the whole block (outer condition false, no else), but the engine
pairs the outer opener with the inner closer and leaves "Z{{/if}}" behind. -/
theorem c2_counterexample :
    renderTemplate jsEvalLit (some [("t", "\x7b\x7b#if a\x7d\x7dX\x7b\x7b#if b\x7d\x7dY\x7b\x7b/if\x7d\x7dZ\x7b\x7b/if\x7d\x7d")]) "t"
      (vObj []) = some "Z\x7b\x7b/if\x7d\x7d"
    ∧ ("Z\x7b\x7b/if\x7d\x7d" : String) ≠ "" := by
  refine ⟨by decide, by decide⟩

/-- C2 amended: a conditional block is delimited by the nearest following
closing marker (nesting is not respected, so the matched body never
contains a closing if marker and the recursive expansion of the body can
rewrite nothing for the if vocabulary); the condition is evaluated on the
trimmed expression and the trimmed then part (text before the first else
marker) is emitted when truthy, the trimmed else part when falsy with an
else marker present, and empty output otherwise. In the subif pass the
matched body does get its nested plain-if blocks expanded before the
subelse split. -/
theorem c2_amended_conditional_expansion (ev : List Char → Option Value)
    (ctx : Value) (f : Nat) :
    processConditionalsF ev ctx (f+1) "\x7b\x7b#if c\x7d\x7dA\x7b\x7belse\x7d\x7dB\x7b\x7b/if\x7d\x7d".data
      = some (if truthy (evaluateExpression ev "c".data ctx) then "A".data else "B".data)
    ∧ processConditionalsF ev ctx (f+1) "\x7b\x7b#if c\x7d\x7dA\x7b\x7b/if\x7d\x7d".data
      = some (if truthy (evaluateExpression ev "c".data ctx) then "A".data else [])
    ∧ processConditionalsF ev ctx (f+1) "\x7b\x7b#if a\x7d\x7dX\x7b\x7b#if b\x7d\x7dY\x7b\x7b/if\x7d\x7dZ\x7b\x7b/if\x7d\x7d".data
      = some ((if truthy (evaluateExpression ev "a".data ctx) then "X\x7b\x7b#if b\x7d\x7dY".data
               else []) ++ "Z\x7b\x7b/if\x7d\x7d".data)
    ∧ processSubConditionalsF ev ctx (f+1)
        "\x7b\x7b#subif s\x7d\x7d\x7b\x7b#if c\x7d\x7dA\x7b\x7belse\x7d\x7dB\x7b\x7b/if\x7d\x7d\x7b\x7bsubelse\x7d\x7dE\x7b\x7b/subif\x7d\x7d".data
      = some (if truthy (evaluateExpression ev "s".data ctx) then
                (if truthy (evaluateExpression ev "c".data ctx) then "A".data else "B".data)
              else "E".data) := by
  refine ⟨?_, ?_, ?_, ?_⟩
  · rw [processConditionalsF_step ev ctx f "\x7b\x7b#if c\x7d\x7dA\x7b\x7belse\x7d\x7dB\x7b\x7b/if\x7d\x7d".data
      [] "c".data "A\x7b\x7belse\x7d\x7dB".data [] rfl]
    rw [processConditionalsF_of_none ev ctx f "A\x7b\x7belse\x7d\x7dB".data rfl]
    rw [processConditionalsF_of_none ev ctx f [] rfl]
    rw [show jsTrim "c".data = "c".data from rfl]
    cases hcond : truthy (evaluateExpression ev "c".data ctx) <;> decide
  · rw [processConditionalsF_step ev ctx f "\x7b\x7b#if c\x7d\x7dA\x7b\x7b/if\x7d\x7d".data
      [] "c".data "A".data [] rfl]
    rw [processConditionalsF_of_none ev ctx f "A".data rfl]
    rw [processConditionalsF_of_none ev ctx f [] rfl]
    rw [show jsTrim "c".data = "c".data from rfl]
    cases hcond : truthy (evaluateExpression ev "c".data ctx) <;> decide
  · rw [processConditionalsF_step ev ctx f "\x7b\x7b#if a\x7d\x7dX\x7b\x7b#if b\x7d\x7dY\x7b\x7b/if\x7d\x7dZ\x7b\x7b/if\x7d\x7d".data
      [] "a".data "X\x7b\x7b#if b\x7d\x7dY".data "Z\x7b\x7b/if\x7d\x7d".data rfl]
    rw [processConditionalsF_of_none ev ctx f "X\x7b\x7b#if b\x7d\x7dY".data rfl]
    rw [processConditionalsF_of_none ev ctx f "Z\x7b\x7b/if\x7d\x7d".data rfl]
    rw [show jsTrim "a".data = "a".data from rfl]
    cases hcond : truthy (evaluateExpression ev "a".data ctx) <;> decide
  · rw [processSubConditionalsF_step ev ctx f
      "\x7b\x7b#subif s\x7d\x7d\x7b\x7b#if c\x7d\x7dA\x7b\x7belse\x7d\x7dB\x7b\x7b/if\x7d\x7d\x7b\x7bsubelse\x7d\x7dE\x7b\x7b/subif\x7d\x7d".data
      [] "s".data "\x7b\x7b#if c\x7d\x7dA\x7b\x7belse\x7d\x7dB\x7b\x7b/if\x7d\x7d\x7b\x7bsubelse\x7d\x7dE".data [] rfl]
    have hPC : processConditionals ev ctx "\x7b\x7b#if c\x7d\x7dA\x7b\x7belse\x7d\x7dB\x7b\x7b/if\x7d\x7d\x7b\x7bsubelse\x7d\x7dE".data
        = some ((if truthy (evaluateExpression ev "c".data ctx) then "A".data else "B".data)
            ++ "\x7b\x7bsubelse\x7d\x7dE".data) := by
      simp only [processConditionals]
      rw [processConditionalsF_step ev ctx _ "\x7b\x7b#if c\x7d\x7dA\x7b\x7belse\x7d\x7dB\x7b\x7b/if\x7d\x7d\x7b\x7bsubelse\x7d\x7dE".data
        [] "c".data "A\x7b\x7belse\x7d\x7dB".data "\x7b\x7bsubelse\x7d\x7dE".data rfl]
      rw [processConditionalsF_of_none ev ctx _ "A\x7b\x7belse\x7d\x7dB".data rfl]
      rw [processConditionalsF_of_none ev ctx _ "\x7b\x7bsubelse\x7d\x7dE".data rfl]
      rw [show jsTrim "c".data = "c".data from rfl]
      cases hcond : truthy (evaluateExpression ev "c".data ctx) <;> decide
    rw [hPC]
    rw [processSubConditionalsF_of_none ev ctx f [] rfl]
    rw [show jsTrim "s".data = "s".data from rfl]
    cases hcond2 : truthy (evaluateExpression ev "c".data ctx) <;>
      cases hcond1 : truthy (evaluateExpression ev "s".data ctx) <;> decide

theorem processNestedLoopsF_step_arr (ev : List Char → Option Value)
    (f : Nat) (ctx : Value) (content pre key sect rest : List Char) (xs : List Value)
    (h : findLoopMatch content = some (pre, key, sect, rest))
    (hv : getValueFromPath ctx key = some (vArr xs)) :
    processNestedLoopsF ev (f+1) ctx content =
      (loopItemsF ev f xs sect).bind fun repl =>
      (processNestedLoopsF ev f ctx rest).map fun tail => pre ++ repl ++ tail := by
  rw [processNestedLoopsF_step ev f ctx content pre key sect rest h, hv]

/-- Counterexample for C1: a loop-body variable absent from the loop
element does not stay literal in the final output when the root data
carries the same path: the final substitution pass resolves the leftover
marker against the root context. -/
theorem c1_counterexample :
    renderTemplate jsEvalLit (some [("t", "\x7b\x7b#items\x7d\x7d\x7b\x7bname\x7d\x7d\x7b\x7b/items\x7d\x7d")]) "t"
      (vObj [("items".data, vArr [vObj []]), ("name".data, vStr "ROOT".data)])
      = some "ROOT"
    ∧ ("ROOT" : String) ≠ "\x7b\x7bname\x7d\x7d" := by
  refine ⟨by decide, by decide⟩

/-- C1 amended: inside the loop pass the current context is exactly the
loop element and a path absent from that element is left literal by that
pass, with no fallback to an enclosing scope at that stage; but the final
substitution pass then runs on the whole output with the root data as
context, so the leftover marker is substituted whenever the path resolves
on the root object, and stays literal in the final output only when it
resolves on neither the element nor the root. -/
theorem c1_amended_loop_scoping (ev : List Char → Option Value) (e v : Value)
    (h : getValueFromPath e "name".data = none) :
    renderTemplate ev (some [("t", "\x7b\x7b#items\x7d\x7d\x7b\x7bname\x7d\x7d\x7b\x7b/items\x7d\x7d")]) "t"
      (vObj [("items".data, vArr [e]), ("name".data, v)])
      = some (String.mk (unescapeTags (jsToString v)))
    ∧ renderTemplate ev (some [("t", "\x7b\x7b#items\x7d\x7d\x7b\x7bname\x7d\x7d\x7b\x7b/items\x7d\x7d")]) "t"
      (vObj [("items".data, vArr [e])])
      = some "\x7b\x7bname\x7d\x7d" := by
  have hStep : ∀ ctx : Value, loopStep ev e "\x7b\x7bname\x7d\x7d".data = some "\x7b\x7bname\x7d\x7d".data := by
    intro _
    simp only [loopStep]
    rw [processConditionals_of_none ev e "\x7b\x7bname\x7d\x7d".data rfl]
    simp only [Option.some_bind]
    rw [processSubConditionals_of_none ev e "\x7b\x7bname\x7d\x7d".data rfl]
    simp only [Option.some_bind, Option.map_some']
    have hsub : substituteVariables e "\x7b\x7bname\x7d\x7d".data = "\x7b\x7bname\x7d\x7d".data := by
      show substituteVariablesF e (8+1) "\x7b\x7bname\x7d\x7d".data = "\x7b\x7bname\x7d\x7d".data
      rw [substituteVariablesF_step e 8 "\x7b\x7bname\x7d\x7d".data [] "name".data [] rfl]
      rw [h]
      rw [substituteVariablesF_of_none e 8 [] rfl]
      decide
    rw [show (['{', '{', 'n', 'a', 'm', 'e', '}', '}'] : List Char) = "\x7b\x7bname\x7d\x7d".data from rfl]
    rw [hsub]
  have hLoop : ∀ data : Value,
      getValueFromPath data "items".data = some (vArr [e]) →
      processNestedLoops ev data "\x7b\x7b#items\x7d\x7d\x7b\x7bname\x7d\x7d\x7b\x7b/items\x7d\x7d".data
        = some "\x7b\x7bname\x7d\x7d".data := by
    intro data hv
    show processNestedLoopsF ev (28+1) data "\x7b\x7b#items\x7d\x7d\x7b\x7bname\x7d\x7d\x7b\x7b/items\x7d\x7d".data
      = some "\x7b\x7bname\x7d\x7d".data
    rw [processNestedLoopsF_step_arr ev 28 data "\x7b\x7b#items\x7d\x7d\x7b\x7bname\x7d\x7d\x7b\x7b/items\x7d\x7d".data
      [] "items".data "\x7b\x7bname\x7d\x7d".data [] [e] rfl hv]
    rw [show (28 : Nat) = 27 + 1 from rfl]
    rw [loopItemsF_cons ev 27 e [] "\x7b\x7bname\x7d\x7d".data]
    rw [hStep data]
    simp only [Option.some_bind]
    rw [processNestedLoopsF_of_none ev 27 e "\x7b\x7bname\x7d\x7d".data rfl]
    simp only [Option.some_bind]
    rw [loopItemsF_nil ev 27 "\x7b\x7bname\x7d\x7d".data]
    rw [processNestedLoopsF_of_none ev (27+1) data [] rfl]
    simp
  constructor
  · have h0 : renderTemplate ev (some [("t", "\x7b\x7b#items\x7d\x7d\x7b\x7bname\x7d\x7d\x7b\x7b/items\x7d\x7d")]) "t"
        (vObj [("items".data, vArr [e]), ("name".data, v)])
        = (renderContent ev (vObj [("items".data, vArr [e]), ("name".data, v)])
            "\x7b\x7b#items\x7d\x7d\x7b\x7bname\x7d\x7d\x7b\x7b/items\x7d\x7d".data).map (fun r => String.mk r) := rfl
    rw [h0]
    simp only [renderContent]
    rw [hLoop (vObj [("items".data, vArr [e]), ("name".data, v)]) rfl]
    simp only [Option.some_bind]
    rw [processConditionals_of_none ev _ "\x7b\x7bname\x7d\x7d".data rfl]
    simp only [Option.some_bind]
    rw [processSubConditionals_of_none ev _ "\x7b\x7bname\x7d\x7d".data rfl]
    simp only [Option.some_bind]
    rw [topIfPass_of_none ev _ "\x7b\x7bname\x7d\x7d".data rfl]
    simp only [Option.some_bind]
    have hsub2 : substituteVariables (vObj [("items".data, vArr [e]), ("name".data, v)])
        "\x7b\x7bname\x7d\x7d".data = jsToString v := by
      show substituteVariablesF (vObj [("items".data, vArr [e]), ("name".data, v)]) (8+1)
        "\x7b\x7bname\x7d\x7d".data = jsToString v
      rw [substituteVariablesF_step _ 8 "\x7b\x7bname\x7d\x7d".data [] "name".data [] rfl]
      rw [show getValueFromPath (vObj [("items".data, vArr [e]), ("name".data, v)])
        "name".data = some v from rfl]
      rw [substituteVariablesF_of_none _ 8 [] rfl]
      simp
    rw [hsub2]
    rfl
  · have h0 : renderTemplate ev (some [("t", "\x7b\x7b#items\x7d\x7d\x7b\x7bname\x7d\x7d\x7b\x7b/items\x7d\x7d")]) "t"
        (vObj [("items".data, vArr [e])])
        = (renderContent ev (vObj [("items".data, vArr [e])])
            "\x7b\x7b#items\x7d\x7d\x7b\x7bname\x7d\x7d\x7b\x7b/items\x7d\x7d".data).map (fun r => String.mk r) := rfl
    rw [h0]
    simp only [renderContent]
    rw [hLoop (vObj [("items".data, vArr [e])]) rfl]
    simp only [Option.some_bind]
    rw [processConditionals_of_none ev _ "\x7b\x7bname\x7d\x7d".data rfl]
    simp only [Option.some_bind]
    rw [processSubConditionals_of_none ev _ "\x7b\x7bname\x7d\x7d".data rfl]
    simp only [Option.some_bind]
    rw [topIfPass_of_none ev _ "\x7b\x7bname\x7d\x7d".data rfl]
    simp only [Option.some_bind]
    have hsub2 : substituteVariables (vObj [("items".data, vArr [e])])
        "\x7b\x7bname\x7d\x7d".data = "\x7b\x7bname\x7d\x7d".data := by
      show substituteVariablesF (vObj [("items".data, vArr [e])]) (8+1)
        "\x7b\x7bname\x7d\x7d".data = "\x7b\x7bname\x7d\x7d".data
      rw [substituteVariablesF_step _ 8 "\x7b\x7bname\x7d\x7d".data [] "name".data [] rfl]
      rw [show getValueFromPath (vObj [("items".data, vArr [e])]) "name".data
        = none from rfl]
      rw [substituteVariablesF_of_none _ 8 [] rfl]
      decide
    rw [hsub2]
    rfl

/-- Witness for C1 amended at a concrete element and root value. -/
theorem c1_witness :
    renderTemplate jsEvalLit (some [("t", "\x7b\x7b#items\x7d\x7d\x7b\x7bname\x7d\x7d\x7b\x7b/items\x7d\x7d")]) "t"
      (vObj [("items".data, vArr [vObj [("other".data, vNum 7)]]),
             ("name".data, vStr "ROOT".data)])
      = some "ROOT"
    ∧ renderTemplate jsEvalLit (some [("t", "\x7b\x7b#items\x7d\x7d\x7b\x7bname\x7d\x7d\x7b\x7b/items\x7d\x7d")]) "t"
      (vObj [("items".data, vArr [vObj [("other".data, vNum 7)]])])
      = some "\x7b\x7bname\x7d\x7d" := by
  have hmain := c1_amended_loop_scoping jsEvalLit (vObj [("other".data, vNum 7)])
    (vStr "ROOT".data) rfl
  exact ⟨hmain.1.trans (by decide), hmain.2⟩
